import Mathlib

/-!
Verification of the goapgit planning/execution engine specification.

This file shallowly embeds the parts of the repository that the claims
refer to:

* the data model (`RepoRef`, `ConflictDetail`, `RepoState`, `ActionSpec`,
  `Plan`, `GoalSpec`, `Config`) — the module `goapgit/core/models.py` is
  not present in the source tree, so these are modelled from section 3 of
  the specification together with their use sites in the present code;
* the action catalogue and candidate-list construction from
  `goapgit/cli/runtime.py` (`_build_*_spec`, `ACTION_HANDLER_SEQUENCE`,
  `build_action_specs`, `WorkflowContext.build_action_runner`);
* the LLM plan-hint helpers from `goapgit/llm/plan.py`
  (`clamp_cost_adjustment`, `apply_plan_hint`);
* the auto-apply threshold from `goapgit/cli/run.py`
  (`_should_auto_apply`);
* the budget tracker from `goapgit/llm/safety.py`
  (`BudgetTracker.register_usage`, `BudgetTracker.ensure_within_budget`);
* the conflict-resolution command shapes of
  `goapgit/actions/conflict.py`, whose implementation module is absent
  from the source tree and is therefore modelled from the specification
  and its unit tests.

Python integers are embedded as `Int`, `Decimal`/`float` quantities as
`Rat`, optional values as `Option`, raised exceptions as explicit
`Except`/`Option` error results, and truthiness tests on sequences as
emptiness tests.
-/

namespace Goapgit

/-- Modelled from the spec (section 3): branch/tracking identity snapshot.
`tracking` is the optional upstream ref string, such as "origin/feature". -/
structure RepoRef where
  branch : String
  tracking : Option String
  sha : String
deriving DecidableEq, Repr

/-- Modelled from the spec (section 3): conflict content type. -/
inductive ConflictType where
  | text
  | json
  | yaml
  | lock
  | binary
deriving DecidableEq, Repr

/-- Modelled from the spec (section 3): a conflicted path with a hunk count
and an inferred content type. -/
structure ConflictDetail where
  path : String
  hunk_count : Nat
  ctype : ConflictType
deriving DecidableEq, Repr

/-- Modelled from the spec (section 3): the repository state snapshot
produced by the observer. -/
structure RepoState where
  repo_path : String
  ref : RepoRef
  diverged_local : Int
  diverged_remote : Int
  has_unpushed_commits : Bool
  working_tree_clean : Bool
  ongoing_rebase : Bool
  ongoing_merge : Bool
  conflicts : List ConflictDetail
deriving DecidableEq, Repr

/-- Modelled from the spec (section 3): goal mode. The present code refers
to `GoalMode.resolve_only` and `GoalMode.push_with_lease`; the spec names
resolve-only versus full-publish as the example modes. -/
inductive GoalMode where
  | resolve_only
  | push_with_lease
  | full_publish
deriving DecidableEq, Repr

/-- Modelled from the spec (section 3): operator goal configuration. -/
structure GoalSpec where
  mode : GoalMode
  tests_must_pass : Bool
  push_with_lease : Bool
  tests_command : String
deriving DecidableEq, Repr

/-- Modelled from the spec (section 3): a glob-pattern conflict strategy
rule. The resolution field ranges over ours/theirs/manual/merge-driver. -/
structure StrategyRule where
  pattern : String
  resolution : String
  whenGuard : Option String
deriving DecidableEq, Repr

/-- Modelled from the spec (section 3): the read-only configuration. -/
structure Config where
  goal : GoalSpec
  strategy_rules : List StrategyRule
  enable_rerere : Bool
  conflict_style : String
  allow_force_push : Bool
  dry_run : Bool
  max_test_runtime_sec : Int
deriving DecidableEq, Repr

/-- Modelled from the spec (section 3): a named, costed, parametrised
action descriptor. `params` is an optional string-keyed string map,
embedded as an association list. -/
structure ActionSpec where
  name : String
  cost : Rat
  rationale : String
  params : Option (List (String × String))
deriving DecidableEq, Repr

/-- Modelled from the spec (section 3): an ordered plan with a total
estimated cost and advisory notes. -/
structure Plan where
  actions : List ActionSpec
  estimated_cost : Rat
  notes : List String
deriving DecidableEq, Repr

/-! ## Action catalogue — `goapgit/cli/runtime.py` -/

/-- `_split_tracking` from `runtime.py`: split a tracking ref string into
remote and branch components at the first slash, defaulting empty
components to "origin" and the whole string respectively. -/
def _split_tracking (tracking : String) : String × String :=
  match tracking.splitOn "/" with
  | r :: b :: rest =>
    let remote := if r = "" then "origin" else r
    let branch := String.intercalate "/" (b :: rest)
    let branch := if branch = "" then tracking else branch
    (remote, branch)
  | _ => ("origin", tracking)

/-- `_build_create_backup_spec`: always applicable. -/
def _build_create_backup_spec (_ : RepoState) (_ : Config) : ActionSpec :=
  { name := "Safety:CreateBackupRef"
    cost := 0.4
    rationale := "Create a recoverable snapshot before making changes."
    params := none }

/-- `_build_ensure_clean_spec`: always applicable. -/
def _build_ensure_clean_spec (_ : RepoState) (_ : Config) : ActionSpec :=
  { name := "Safety:EnsureCleanOrStash"
    cost := 0.6
    rationale := "Ensure the working tree is clean or safely stashed."
    params := none }

/-- `_build_auto_trivial_spec`: always applicable. -/
def _build_auto_trivial_spec (_ : RepoState) (_ : Config) : ActionSpec :=
  { name := "Conflict:AutoTrivialResolve"
    cost := 0.8
    rationale := "Reuse rerere knowledge to resolve trivial conflicts."
    params := none }

/-- `_build_preview_conflicts_spec`: gated on tracking, remote divergence,
and no ongoing rebase/merge/conflicts. -/
def _build_preview_conflicts_spec (state : RepoState) (_ : Config) : Option ActionSpec :=
  match state.ref.tracking with
  | none => none
  | some tracking =>
    if state.diverged_remote ≤ 0 ∨ state.ongoing_rebase = true
        ∨ state.ongoing_merge = true ∨ state.conflicts ≠ [] then
      none
    else
      some
        { name := "Conflict:PreviewMergeConflicts"
          cost := 0.9
          rationale := "Simulate the upstream merge to anticipate conflicts before rebasing."
          params := some [("ours", "HEAD"), ("theirs", tracking)] }

/-- `_build_fetch_all_spec`: same gating as the preview action; forwards
the remote component of the tracking ref. -/
def _build_fetch_all_spec (state : RepoState) (_ : Config) : Option ActionSpec :=
  match state.ref.tracking with
  | none => none
  | some tracking =>
    if state.diverged_remote ≤ 0 ∨ state.ongoing_rebase = true
        ∨ state.ongoing_merge = true ∨ state.conflicts ≠ [] then
      none
    else
      some
        { name := "Sync:FetchAll"
          cost := 1.1
          rationale := "Fetch the latest remote refs before attempting to rebase onto upstream."
          params := some [("remote", (_split_tracking tracking).1)] }

/-- `_build_apply_strategy_spec`: applicable when strategy rules exist. -/
def _build_apply_strategy_spec (_ : RepoState) (config : Config) : Option ActionSpec :=
  if config.strategy_rules = [] then none
  else
    some
      { name := "Conflict:ApplyPathStrategy"
        cost := 1.2
        rationale := "Apply configured conflict resolution strategies to matching paths."
        params := none }

/-- `_build_rebase_onto_spec`: same gating as the preview action;
`update_refs` is disabled when the goal mode is resolve-only. -/
def _build_rebase_onto_spec (state : RepoState) (config : Config) : Option ActionSpec :=
  match state.ref.tracking with
  | none => none
  | some tracking =>
    if state.diverged_remote ≤ 0 ∨ state.ongoing_rebase = true
        ∨ state.ongoing_merge = true ∨ state.conflicts ≠ [] then
      none
    else
      let update_refs := config.goal.mode ≠ GoalMode.resolve_only
      some
        { name := "Rebase:OntoUpstream"
          cost := 1.0
          rationale := "Replay local commits on top of the latest upstream revision."
          params := some
            [("upstream", tracking),
             ("update_refs", if update_refs then "true" else "false")] }

/-- `_build_rebase_spec`: applicable only while a rebase is ongoing. -/
def _build_rebase_spec (state : RepoState) (_ : Config) : Option ActionSpec :=
  if state.ongoing_rebase = false then none
  else
    some
      { name := "Rebase:ContinueOrAbort"
        cost := 1.5
        rationale := "Complete or abort the ongoing rebase safely."
        params := none }

/-- `_build_push_with_lease_spec`: gated on tracking, the push goal, no
ongoing rebase/merge, and unpushed or locally diverged commits. -/
def _build_push_with_lease_spec (state : RepoState) (config : Config) : Option ActionSpec :=
  match state.ref.tracking with
  | none => none
  | some tracking =>
    if ¬ (config.goal.push_with_lease = true ∨ config.goal.mode = GoalMode.push_with_lease) then
      none
    else if state.ongoing_rebase = true ∨ state.ongoing_merge = true then
      none
    else if ¬ (state.has_unpushed_commits = true ∨ state.diverged_local > 0) then
      none
    else
      let rb := _split_tracking tracking
      some
        { name := "Sync:PushWithLease"
          cost := 1.6
          rationale := "Publish local commits using --force-with-lease once the branch is clean."
          params := some
            [("remote", rb.1),
             ("remote_branch", rb.2),
             ("local_branch", state.ref.branch)] }

/-- `_build_run_tests_spec`: gated on the tests goal, a clean tree, and no
conflicts or ongoing rebase/merge. -/
def _build_run_tests_spec (state : RepoState) (config : Config) : Option ActionSpec :=
  if config.goal.tests_must_pass = false then none
  else if state.conflicts ≠ [] ∨ state.working_tree_clean = false then none
  else if state.ongoing_rebase = true ∨ state.ongoing_merge = true then none
  else
    some
      { name := "Quality:RunTests"
        cost := 1.2
        rationale := "Execute the configured test command to validate the branch before pushing."
        params := some [("timeout_sec", toString config.max_test_runtime_sec)] }

/-- `_build_range_diff_spec`: gated on tracking, being ahead or carrying
unpushed commits, and no conflicts or ongoing rebase/merge. -/
def _build_range_diff_spec (state : RepoState) (_ : Config) : Option ActionSpec :=
  match state.ref.tracking with
  | none => none
  | some tracking =>
    if (state.diverged_local ≤ 0 ∧ state.has_unpushed_commits = false)
        ∨ state.ongoing_rebase = true ∨ state.ongoing_merge = true
        ∨ state.conflicts ≠ [] then
      none
    else
      some
        { name := "Quality:ExplainRangeDiff"
          cost := 1.3
          rationale := "Summarise how local commits differ from the tracked upstream branch."
          params := some [("tracking", tracking)] }

/-- `ActionHandler` from `runtime.py`, restricted to the fields the
planning path uses: a stable name and the precondition/spec builder. -/
structure ActionHandler where
  name : String
  build_spec : RepoState → Config → Option ActionSpec

/-- `ACTION_HANDLER_SEQUENCE`: the fixed, ordered action catalogue. -/
def ACTION_HANDLER_SEQUENCE : List ActionHandler :=
  [ { name := "Safety:CreateBackupRef"
      build_spec := fun s c => some (_build_create_backup_spec s c) },
    { name := "Safety:EnsureCleanOrStash"
      build_spec := fun s c => some (_build_ensure_clean_spec s c) },
    { name := "Conflict:AutoTrivialResolve"
      build_spec := fun s c => some (_build_auto_trivial_spec s c) },
    { name := "Conflict:PreviewMergeConflicts"
      build_spec := _build_preview_conflicts_spec },
    { name := "Conflict:ApplyPathStrategy"
      build_spec := _build_apply_strategy_spec },
    { name := "Sync:FetchAll"
      build_spec := _build_fetch_all_spec },
    { name := "Rebase:OntoUpstream"
      build_spec := _build_rebase_onto_spec },
    { name := "Rebase:ContinueOrAbort"
      build_spec := _build_rebase_spec },
    { name := "Sync:PushWithLease"
      build_spec := _build_push_with_lease_spec },
    { name := "Quality:RunTests"
      build_spec := _build_run_tests_spec },
    { name := "Quality:ExplainRangeDiff"
      build_spec := _build_range_diff_spec } ]

/-- `build_action_specs`: iterate the catalogue in order and keep the
specs whose preconditions hold. -/
def build_action_specs (state : RepoState) (config : Config) : List ActionSpec :=
  ACTION_HANDLER_SEQUENCE.filterMap (fun h => h.build_spec state config)

/-! ## Action runner — `WorkflowContext.build_action_runner` -/

/-- Outcome of invoking an action handler body. In the Python code a
handler returns a boolean, raises `GitCommandError` on a failing git
invocation, or raises some other exception; the runner wraps all three in
a try/except. -/
inductive ActionOutcome where
  | ok (result : Bool)
  | gitCommandError (returncode : Int) (stderr : String)
  | unexpectedError (message : String)
deriving DecidableEq, Repr

/-- `WorkflowContext.build_action_runner` from `runtime.py`. The
`handlers` argument models the `ACTION_HANDLERS` name lookup combined
with each handler body under the ambient workflow context; the result of
a body is an `ActionOutcome`. The runner returns `false` for an unknown
name, `false` when the body raised (both exception arms are caught and
logged), and the boolean result otherwise. -/
def build_action_runner (handlers : String → Option (ActionSpec → ActionOutcome))
    (action : ActionSpec) : Bool :=
  match handlers action.name with
  | none => false
  | some body =>
    match body action with
    | ActionOutcome.ok result => result
    | ActionOutcome.gitCommandError _ _ => false
    | ActionOutcome.unexpectedError _ => false

/-! ## Conflict effector command shapes — `goapgit/actions/conflict.py` -/

/-- Modelled from the spec: the module `goapgit/actions/conflict.py` is
not present under the source tree; only its unit tests are. Per the spec
(section 4.6) and the expected commands in
`tests/unit/actions/test_conflict.py`, `auto_trivial_resolve` stages a
path whose content no longer carries conflict markers with
`git add -- <path>`, the separator keeping hyphen-prefixed paths from
being parsed as flags. -/
def auto_trivial_resolve_add_command (path : String) : List String :=
  ["git", "add", "--", path]

/-- Modelled from the spec: commands issued by `apply_path_strategy`
(absent from the source tree) for one conflicted path under an
ours/theirs resolution rule: check out that side of the path, then stage
it, each time with the `--` separator before the path. Resolutions other
than ours/theirs are escalated and issue no command. -/
def apply_path_strategy_commands (resolution : String) (path : String) : List (List String) :=
  if resolution = "ours" then
    [["git", "checkout", "--ours", "--", path], ["git", "add", "--", path]]
  else if resolution = "theirs" then
    [["git", "checkout", "--theirs", "--", path], ["git", "add", "--", path]]
  else []

/-- The argument list `cmd` passes `path` behind an explicit `--`
separator: `--` occurs immediately before the path. -/
def SeparatorBeforePath (cmd : List String) (path : String) : Prop :=
  ∃ before after, cmd = before ++ "--" :: path :: after

/-! ## Plan hints — `goapgit/llm/plan.py` -/

/-- `PlanHint` from `goapgit/llm/schema.py`. -/
structure PlanHint where
  action : String
  cost_adjustment_pct : Rat
  note : Option String
deriving DecidableEq, Repr

/-- `clamp_cost_adjustment` from `plan.py`: clamp `value` between the
bounds, raising `ValueError` when `minimum` exceeds `maximum`. The Python
default bounds are `-0.2` and `0.2`; callers in this file pass them
explicitly. -/
def clamp_cost_adjustment (value minimum maximum : Rat) : Except String Rat :=
  if minimum > maximum then Except.error "minimum must not exceed maximum"
  else Except.ok (min (max value minimum) maximum)

/-- Render a rational with three decimal places, mirroring the `:.3f`
format applied to the clamped adjustment when it is appended to the plan
notes. -/
def format_fixed3 (q : Rat) : String :=
  let scaled : Int := round (q * 1000)
  let sign := if scaled < 0 then "-" else ""
  let n := scaled.natAbs
  let fracStr := toString (n % 1000)
  let padded := String.mk (List.replicate (3 - fracStr.length) '0') ++ fracStr
  sign ++ toString (n / 1000) ++ "." ++ padded

/-- `apply_plan_hint` from `plan.py`: clamp the requested percentage,
scale the estimated cost by `1 + clamped`, and append audit notes. The
structured logging call has no bearing on the returned plan and is
omitted. -/
def apply_plan_hint (plan : Plan) (hint : PlanHint) : Except String Plan :=
  match clamp_cost_adjustment hint.cost_adjustment_pct (-0.2) 0.2 with
  | Except.error e => Except.error e
  | Except.ok clamped_pct =>
    let adjusted_cost := plan.estimated_cost * (1 + clamped_pct)
    let notes := plan.notes ++
      ["plan_hint_action=" ++ hint.action,
       "cost_adjustment_pct=" ++ format_fixed3 clamped_pct]
    let notes :=
      match hint.note with
      | some n => notes ++ ["plan_hint_note=" ++ n]
      | none => notes
    Except.ok { plan with estimated_cost := adjusted_cost, notes := notes }

/-! ## Auto-apply threshold — `goapgit/cli/run.py` -/

/-- `ConfidenceLevel` from `goapgit/llm/schema.py`. -/
inductive ConfidenceLevel where
  | low
  | med
  | high
deriving DecidableEq, Repr

/-- `PatchSet` from `goapgit/llm/schema.py`. -/
structure PatchSet where
  patches : List String
  confidence : ConfidenceLevel
  rationale : String
deriving DecidableEq, Repr

/-- `LLMSafetyLevel` from `run.py`. -/
inductive LLMSafetyLevel where
  | cautious
  | balanced
  | experimental
deriving DecidableEq, Repr

/-- `AUTO_APPLY_PATCH_LIMIT` from `run.py`. -/
def AUTO_APPLY_PATCH_LIMIT : Nat := 3

/-- `_should_auto_apply` from `run.py`: the safety threshold deciding
whether a proposed patch set may be applied without confirmation. -/
def _should_auto_apply (patch_set : PatchSet) (safety : LLMSafetyLevel) : Bool :=
  if patch_set.patches.isEmpty then false
  else
    let patch_count := patch_set.patches.length
    let confidence := patch_set.confidence
    match safety with
    | LLMSafetyLevel.cautious =>
      decide (confidence = ConfidenceLevel.high ∧ patch_count = 1)
    | LLMSafetyLevel.balanced =>
      decide ((confidence = ConfidenceLevel.high ∨ confidence = ConfidenceLevel.med)
        ∧ patch_count ≤ AUTO_APPLY_PATCH_LIMIT)
    | LLMSafetyLevel.experimental =>
      decide (confidence = ConfidenceLevel.high ∨ confidence = ConfidenceLevel.med)

/-! ## Budget tracking — `goapgit/llm/safety.py` -/

/-- `BudgetExceededError` from `safety.py`, carrying the stringified
limit and attempted totals. -/
structure BudgetExceededError where
  limit : String
  attempted : String
deriving DecidableEq, Repr

/-- `BudgetTracker` from `safety.py`. Token counts are Python integers,
costs are `Decimal` values; both limits are optional. -/
structure BudgetTracker where
  max_tokens : Option Int
  max_cost : Option Rat
  used_tokens : Int
  used_cost : Rat
deriving DecidableEq, Repr

/-- `BudgetTracker._project_tokens`. Python coalesces a falsy argument to
zero, numerically the same as `Option.getD 0`. -/
def BudgetTracker.project_tokens (t : BudgetTracker) (tokens : Option Int) : Int :=
  t.used_tokens + tokens.getD 0

/-- `BudgetTracker._project_cost`. -/
def BudgetTracker.project_cost (t : BudgetTracker) (cost : Option Rat) : Rat :=
  t.used_cost + cost.getD 0

/-- `BudgetTracker.ensure_within_budget`: raise (here: return an error)
when the projected totals would exceed a configured limit; the tracker is
not modified. -/
def BudgetTracker.ensure_within_budget (t : BudgetTracker)
    (prompt_tokens completion_tokens : Option Int) (estimated_cost : Option Rat) :
    Option BudgetExceededError :=
  let projected_tokens := t.project_tokens (some (prompt_tokens.getD 0 + completion_tokens.getD 0))
  let tokenError : Option BudgetExceededError :=
    match t.max_tokens with
    | some limit =>
      if projected_tokens > limit then
        some { limit := toString limit, attempted := toString projected_tokens }
      else none
    | none => none
  match tokenError with
  | some e => some e
  | none =>
    let projected_cost := t.project_cost estimated_cost
    match t.max_cost with
    | some limit =>
      if projected_cost > limit then
        some { limit := toString limit, attempted := toString projected_cost }
      else none
    | none => none

/-- `BudgetTracker.register_usage`: add the consumed tokens and cost to
the running totals first, then check the limits against the updated
totals. The Python method mutates `self` before raising, so the updated
tracker is returned alongside the optional error. -/
def BudgetTracker.register_usage (t : BudgetTracker)
    (prompt_tokens completion_tokens : Option Int) (cost : Option Rat) :
    BudgetTracker × Option BudgetExceededError :=
  let tokens_consumed := prompt_tokens.getD 0 + completion_tokens.getD 0
  let cost_consumed := cost.getD 0
  let updated : BudgetTracker :=
    { t with
      used_tokens := t.used_tokens + tokens_consumed
      used_cost := t.used_cost + cost_consumed }
  let tokenError : Option BudgetExceededError :=
    match t.max_tokens with
    | some limit =>
      if updated.used_tokens > limit then
        some { limit := toString limit, attempted := toString updated.used_tokens }
      else none
    | none => none
  let err : Option BudgetExceededError :=
    match tokenError with
    | some e => some e
    | none =>
      match t.max_cost with
      | some limit =>
        if updated.used_cost > limit then
          some { limit := toString limit, attempted := toString updated.used_cost }
        else none
      | none => none
  (updated, err)

/-! ## Supporting lemmas -/

theorem _build_preview_conflicts_spec_name (s : RepoState) (c : Config) (spec : ActionSpec)
    (h : _build_preview_conflicts_spec s c = some spec) :
    spec.name = "Conflict:PreviewMergeConflicts" := by
  unfold _build_preview_conflicts_spec at h
  split at h
  · simp at h
  · split at h
    · simp at h
    · simp only [Option.some.injEq] at h
      rw [← h]

theorem _build_fetch_all_spec_name (s : RepoState) (c : Config) (spec : ActionSpec)
    (h : _build_fetch_all_spec s c = some spec) :
    spec.name = "Sync:FetchAll" := by
  unfold _build_fetch_all_spec at h
  split at h
  · simp at h
  · split at h
    · simp at h
    · simp only [Option.some.injEq] at h
      rw [← h]

theorem _build_apply_strategy_spec_name (s : RepoState) (c : Config) (spec : ActionSpec)
    (h : _build_apply_strategy_spec s c = some spec) :
    spec.name = "Conflict:ApplyPathStrategy" := by
  unfold _build_apply_strategy_spec at h
  split at h
  · simp at h
  · simp only [Option.some.injEq] at h
    rw [← h]

theorem _build_rebase_onto_spec_name (s : RepoState) (c : Config) (spec : ActionSpec)
    (h : _build_rebase_onto_spec s c = some spec) :
    spec.name = "Rebase:OntoUpstream" := by
  unfold _build_rebase_onto_spec at h
  split at h
  · simp at h
  · split at h
    · simp at h
    · simp only [Option.some.injEq] at h
      rw [← h]

theorem _build_rebase_spec_name (s : RepoState) (c : Config) (spec : ActionSpec)
    (h : _build_rebase_spec s c = some spec) :
    spec.name = "Rebase:ContinueOrAbort" := by
  unfold _build_rebase_spec at h
  split at h
  · simp at h
  · simp only [Option.some.injEq] at h
    rw [← h]

theorem _build_push_with_lease_spec_name (s : RepoState) (c : Config) (spec : ActionSpec)
    (h : _build_push_with_lease_spec s c = some spec) :
    spec.name = "Sync:PushWithLease" := by
  unfold _build_push_with_lease_spec at h
  split at h
  · simp at h
  · split at h
    · simp at h
    · split at h
      · simp at h
      · split at h
        · simp at h
        · simp only [Option.some.injEq] at h
          rw [← h]

theorem _build_run_tests_spec_name (s : RepoState) (c : Config) (spec : ActionSpec)
    (h : _build_run_tests_spec s c = some spec) :
    spec.name = "Quality:RunTests" := by
  unfold _build_run_tests_spec at h
  split at h
  · simp at h
  · split at h
    · simp at h
    · split at h
      · simp at h
      · simp only [Option.some.injEq] at h
        rw [← h]

theorem _build_range_diff_spec_name (s : RepoState) (c : Config) (spec : ActionSpec)
    (h : _build_range_diff_spec s c = some spec) :
    spec.name = "Quality:ExplainRangeDiff" := by
  unfold _build_range_diff_spec at h
  split at h
  · simp at h
  · split at h
    · simp at h
    · simp only [Option.some.injEq] at h
      rw [← h]

/-- Every handler in the catalogue only ever produces a spec bearing that
own name of that handler. -/
theorem build_spec_name_eq (h : ActionHandler) (hmem : h ∈ ACTION_HANDLER_SEQUENCE)
    (s : RepoState) (c : Config) (spec : ActionSpec)
    (hspec : h.build_spec s c = some spec) :
    spec.name = h.name := by
  simp only [ACTION_HANDLER_SEQUENCE, List.mem_cons, List.not_mem_nil, or_false] at hmem
  rcases hmem with rfl | rfl | rfl | rfl | rfl | rfl | rfl | rfl | rfl | rfl | rfl
  · simp only [Option.some.injEq] at hspec; rw [← hspec]; rfl
  · simp only [Option.some.injEq] at hspec; rw [← hspec]; rfl
  · simp only [Option.some.injEq] at hspec; rw [← hspec]; rfl
  · exact _build_preview_conflicts_spec_name s c spec hspec
  · exact _build_apply_strategy_spec_name s c spec hspec
  · exact _build_fetch_all_spec_name s c spec hspec
  · exact _build_rebase_onto_spec_name s c spec hspec
  · exact _build_rebase_spec_name s c spec hspec
  · exact _build_push_with_lease_spec_name s c spec hspec
  · exact _build_run_tests_spec_name s c spec hspec
  · exact _build_range_diff_spec_name s c spec hspec

/-- Names of the catalogue entries, in catalogue order. -/
def catalogue_names : List String :=
  ["Safety:CreateBackupRef", "Safety:EnsureCleanOrStash",
   "Conflict:AutoTrivialResolve", "Conflict:PreviewMergeConflicts",
   "Conflict:ApplyPathStrategy", "Sync:FetchAll", "Rebase:OntoUpstream",
   "Rebase:ContinueOrAbort", "Sync:PushWithLease", "Quality:RunTests",
   "Quality:ExplainRangeDiff"]

theorem filterMap_build_spec_names_sublist (hs : List ActionHandler)
    (s : RepoState) (c : Config)
    (hname : ∀ h ∈ hs, ∀ spec, h.build_spec s c = some spec → spec.name = h.name) :
    ((hs.filterMap (fun h => h.build_spec s c)).map ActionSpec.name).Sublist
      (hs.map ActionHandler.name) := by
  induction hs with
  | nil => simp
  | cons hd tl ih =>
    have hhd := hname hd (List.mem_cons_self hd tl)
    have htl : ∀ h ∈ tl, ∀ spec, h.build_spec s c = some spec → spec.name = h.name :=
      fun h hm => hname h (List.mem_cons_of_mem hd hm)
    cases hbs : hd.build_spec s c with
    | none =>
      simp only [List.filterMap_cons, hbs, List.map_cons]
      exact (ih htl).cons hd.name
    | some spec =>
      simp only [List.filterMap_cons, hbs, List.map_cons, hhd spec hbs]
      exact (ih htl).cons₂ hd.name

/-! ## Claim theorems -/

/-- C4: for every `RepoState` and `Config`, the action names in the list
returned by `build_action_specs` form a subsequence of the fixed
catalogue order (safety, conflict handling, sync/rebase, quality); no
construction of the candidate list reorders actions across that order. -/
theorem build_action_specs_names_sublist_catalogue (s : RepoState) (c : Config) :
    ((build_action_specs s c).map ActionSpec.name).Sublist catalogue_names := by
  have h := filterMap_build_spec_names_sublist ACTION_HANDLER_SEQUENCE s c
    (fun hd hm spec hspec => build_spec_name_eq hd hm s c spec hspec)
  rw [build_action_specs]
  simpa [ACTION_HANDLER_SEQUENCE, catalogue_names] using h

/-- C1: when a rebase or merge is ongoing, the candidate action list
produced by `build_action_specs` never contains `Sync:PushWithLease`,
regardless of the goal configuration. -/
theorem push_with_lease_absent_during_rebase_or_merge (s : RepoState) (c : Config)
    (h : s.ongoing_rebase = true ∨ s.ongoing_merge = true) :
    ∀ a ∈ build_action_specs s c, a.name ≠ "Sync:PushWithLease" := by
  intro a ha hname
  rw [build_action_specs, List.mem_filterMap] at ha
  obtain ⟨hd, hmem, hspec⟩ := ha
  have hn := build_spec_name_eq hd hmem s c a hspec
  rw [hname] at hn
  simp only [ACTION_HANDLER_SEQUENCE, List.mem_cons, List.not_mem_nil, or_false] at hmem
  rcases hmem with rfl | rfl | rfl | rfl | rfl | rfl | rfl | rfl | rfl | rfl | rfl
  · exact absurd hn (by decide)
  · exact absurd hn (by decide)
  · exact absurd hn (by decide)
  · exact absurd hn (by decide)
  · exact absurd hn (by decide)
  · exact absurd hn (by decide)
  · exact absurd hn (by decide)
  · exact absurd hn (by decide)
  · -- the push handler itself: its precondition rejects an ongoing rebase/merge
    replace hspec : _build_push_with_lease_spec s c = some a := hspec
    unfold _build_push_with_lease_spec at hspec
    split at hspec
    · simp at hspec
    · rcases h with h | h <;> simp [h, ite_self] at hspec
  · exact absurd hn (by decide)
  · exact absurd hn (by decide)

/-- Concrete state used to witness C1: a rebase is ongoing while the goal
asks for a lease-protected push. -/
def w1_state : RepoState :=
  { repo_path := "/repo"
    ref := { branch := "feature", tracking := some "origin/feature", sha := "deadbeef" }
    diverged_local := 1
    diverged_remote := 3
    has_unpushed_commits := true
    working_tree_clean := true
    ongoing_rebase := true
    ongoing_merge := false
    conflicts := [] }

/-- Concrete configuration used to witness C1. -/
def w1_config : Config :=
  { goal :=
      { mode := GoalMode.push_with_lease
        tests_must_pass := true
        push_with_lease := true
        tests_command := "pytest" }
    strategy_rules := []
    enable_rerere := true
    conflict_style := "zdiff3"
    allow_force_push := true
    dry_run := false
    max_test_runtime_sec := 600 }

/-- Witness for C1 at a concrete state with an ongoing rebase. -/
theorem push_with_lease_absent_during_rebase_or_merge_witness :
    (build_action_specs w1_state w1_config).all
      (fun a => decide (a.name ≠ "Sync:PushWithLease")) = true := by
  apply List.all_eq_true.mpr
  intro a ha
  exact decide_eq_true
    (push_with_lease_absent_during_rebase_or_merge w1_state w1_config (Or.inl rfl) a ha)

/-- C3: the candidate list contains `Quality:RunTests` exactly when the
tests goal is set, the tree is clean, there are no conflicts, and no
rebase or merge is ongoing. -/
theorem run_tests_present_iff (s : RepoState) (c : Config) :
    (∃ a ∈ build_action_specs s c, a.name = "Quality:RunTests") ↔
      (c.goal.tests_must_pass = true ∧ s.working_tree_clean = true ∧ s.conflicts = []
        ∧ s.ongoing_rebase = false ∧ s.ongoing_merge = false) := by
  constructor
  · rintro ⟨a, ha, hname⟩
    rw [build_action_specs, List.mem_filterMap] at ha
    obtain ⟨hd, hmem, hspec⟩ := ha
    have hn := build_spec_name_eq hd hmem s c a hspec
    rw [hname] at hn
    simp only [ACTION_HANDLER_SEQUENCE, List.mem_cons, List.not_mem_nil, or_false] at hmem
    rcases hmem with rfl | rfl | rfl | rfl | rfl | rfl | rfl | rfl | rfl | rfl | rfl
    · exact absurd hn (by decide)
    · exact absurd hn (by decide)
    · exact absurd hn (by decide)
    · exact absurd hn (by decide)
    · exact absurd hn (by decide)
    · exact absurd hn (by decide)
    · exact absurd hn (by decide)
    · exact absurd hn (by decide)
    · exact absurd hn (by decide)
    · -- the run-tests handler: read its gate back off the successful branch
      replace hspec : _build_run_tests_spec s c = some a := hspec
      unfold _build_run_tests_spec at hspec
      split at hspec
      · simp at hspec
      · split at hspec
        · simp at hspec
        · split at hspec
          · simp at hspec
          · next h1 h2 h3 =>
            refine ⟨?_, ?_, ?_, ?_, ?_⟩
            · simpa using h1
            · rcases not_or.mp h2 with ⟨-, hwc⟩
              simpa using hwc
            · rcases not_or.mp h2 with ⟨hcf, -⟩
              simpa using hcf
            · rcases not_or.mp h3 with ⟨hr, -⟩
              simpa using hr
            · rcases not_or.mp h3 with ⟨-, hm⟩
              simpa using hm
    · exact absurd hn (by decide)
  · rintro ⟨h1, h2, h3, h4, h5⟩
    refine ⟨{ name := "Quality:RunTests", cost := 1.2,
              rationale := "Execute the configured test command to validate the branch before pushing.",
              params := some [("timeout_sec", toString c.max_test_runtime_sec)] }, ?_, rfl⟩
    rw [build_action_specs, List.mem_filterMap]
    refine ⟨{ name := "Quality:RunTests", build_spec := _build_run_tests_spec }, ?_, ?_⟩
    · simp [ACTION_HANDLER_SEQUENCE]
    · show _build_run_tests_spec s c = _
      unfold _build_run_tests_spec
      rw [if_neg (by simp [h1]), if_neg (by simp [h2, h3]), if_neg (by simp [h4, h5])]

/-- The shared gate of the preview, fetch and rebase-onto preconditions:
tracking set, behind the remote, and no ongoing rebase/merge/conflicts. -/
def RemoteSyncGate (s : RepoState) : Prop :=
  s.ref.tracking ≠ none ∧ 0 < s.diverged_remote ∧ s.ongoing_rebase = false
    ∧ s.ongoing_merge = false ∧ s.conflicts = []

instance (s : RepoState) : Decidable (RemoteSyncGate s) := by
  unfold RemoteSyncGate
  infer_instance

theorem remote_sync_gate_neg_iff (s : RepoState) :
    ¬(s.diverged_remote ≤ 0 ∨ s.ongoing_rebase = true ∨ s.ongoing_merge = true
        ∨ s.conflicts ≠ []) ↔
      (0 < s.diverged_remote ∧ s.ongoing_rebase = false ∧ s.ongoing_merge = false
        ∧ s.conflicts = []) := by
  simp [not_or, not_le, Bool.not_eq_true]

/-- C5: the applicability predicates of `Conflict:PreviewMergeConflicts`,
`Sync:FetchAll` and `Rebase:OntoUpstream` are extensionally equal — each
returns a spec exactly when tracking is set, the branch is behind the
remote, and no rebase, merge or conflict is in progress, so a candidate
list contains all three of these actions or none of them. -/
theorem preview_fetch_rebase_same_gate (s : RepoState) (c : Config) :
    ((_build_preview_conflicts_spec s c).isSome ↔ RemoteSyncGate s)
      ∧ ((_build_fetch_all_spec s c).isSome ↔ RemoteSyncGate s)
      ∧ ((_build_rebase_onto_spec s c).isSome ↔ RemoteSyncGate s) := by
  refine ⟨?_, ?_, ?_⟩ <;>
    [unfold _build_preview_conflicts_spec; unfold _build_fetch_all_spec;
     unfold _build_rebase_onto_spec] <;>
    · unfold RemoteSyncGate
      cases htr : s.ref.tracking with
      | none => simp [htr]
      | some tr =>
        simp only [htr, ne_eq, Option.some.injEq, reduceCtorEq, not_false_eq_true, true_and]
        split
        · next hcond =>
          simp only [Option.isSome_none, Bool.false_eq_true, false_iff]
          rw [← remote_sync_gate_neg_iff s] at *
          tauto
        · next hcond =>
          simp only [Option.isSome_some, true_iff]
          exact (remote_sync_gate_neg_iff s).mp hcond

/-- Concrete state refuting C8 as stated: unpushed commits exist and
nothing is in progress, but no upstream tracking ref is configured. -/
def c8_state : RepoState :=
  { repo_path := "/repo"
    ref := { branch := "feature", tracking := none, sha := "deadbeef" }
    diverged_local := 2
    diverged_remote := 0
    has_unpushed_commits := true
    working_tree_clean := true
    ongoing_rebase := false
    ongoing_merge := false
    conflicts := [] }

/-- Concrete configuration used with `c8_state`. -/
def c8_config : Config :=
  { goal :=
      { mode := GoalMode.full_publish
        tests_must_pass := false
        push_with_lease := false
        tests_command := "pytest" }
    strategy_rules := []
    enable_rerere := true
    conflict_style := "zdiff3"
    allow_force_push := false
    dry_run := true
    max_test_runtime_sec := 600 }

/-- C8 counterexample: `c8_state` is ahead with unpushed commits, has no
conflicts and no ongoing rebase/merge, yet `build_action_specs` yields no
`Quality:ExplainRangeDiff` action, because the tracking ref is unset. -/
theorem range_diff_missing_without_tracking :
    (0 < c8_state.diverged_local ∨ c8_state.has_unpushed_commits = true)
      ∧ c8_state.conflicts = []
      ∧ c8_state.ongoing_rebase = false
      ∧ c8_state.ongoing_merge = false
      ∧ ¬ ∃ a ∈ build_action_specs c8_state c8_config,
          a.name = "Quality:ExplainRangeDiff" := by
  decide

/-- C8 (amended): when additionally a tracking ref is set, a state that
is ahead of upstream or carries unpushed commits, with no conflicts and
no ongoing rebase/merge, always yields a `Quality:ExplainRangeDiff`
candidate with cost 1.3. -/
theorem range_diff_present_when_ahead (s : RepoState) (c : Config)
    (htr : s.ref.tracking ≠ none)
    (h : 0 < s.diverged_local ∨ s.has_unpushed_commits = true)
    (hc : s.conflicts = []) (hr : s.ongoing_rebase = false)
    (hm : s.ongoing_merge = false) :
    ∃ a ∈ build_action_specs s c,
      a.name = "Quality:ExplainRangeDiff" ∧ a.cost = 1.3 := by
  obtain ⟨tr, htr'⟩ := Option.ne_none_iff_exists'.mp htr
  refine ⟨{ name := "Quality:ExplainRangeDiff", cost := 1.3,
            rationale := "Summarise how local commits differ from the tracked upstream branch.",
            params := some [("tracking", tr)] }, ?_, rfl, rfl⟩
  rw [build_action_specs, List.mem_filterMap]
  refine ⟨{ name := "Quality:ExplainRangeDiff", build_spec := _build_range_diff_spec }, ?_, ?_⟩
  · simp [ACTION_HANDLER_SEQUENCE]
  · show _build_range_diff_spec s c = _
    unfold _build_range_diff_spec
    rw [htr']
    dsimp only
    rw [if_neg]
    simp only [not_or, not_and, not_le, Bool.not_eq_true, ne_eq, not_not]
    refine ⟨?_, hr, hm, hc⟩
    intro hdl
    rcases h with h | h
    · exact absurd hdl (not_le.mpr h)
    · intro hup
      rw [h] at hup
      exact absurd hup (by decide)

/-- Witness state for the amended C8: ahead of a configured upstream. -/
def w8_state : RepoState :=
  { repo_path := "/repo"
    ref := { branch := "feature", tracking := some "origin/feature", sha := "deadbeef" }
    diverged_local := 2
    diverged_remote := 0
    has_unpushed_commits := true
    working_tree_clean := true
    ongoing_rebase := false
    ongoing_merge := false
    conflicts := [] }

/-- Witness for the amended C8 at a concrete state. -/
theorem range_diff_present_when_ahead_witness :
    ∃ a ∈ build_action_specs w8_state c8_config,
      a.name = "Quality:ExplainRangeDiff" ∧ a.cost = 1.3 :=
  range_diff_present_when_ahead w8_state c8_config (by decide) (Or.inl (by decide))
    rfl rfl rfl

/-- C2: for every conflicted path beginning with a hyphen, the
`git add` and `git checkout` invocations issued by the conflict
resolution effectors carry an explicit `--` separator immediately before
the path, so the path cannot be parsed as a flag. -/
theorem conflict_commands_use_separator (path : String)
    (_h : path.data.head? = some '-') :
    SeparatorBeforePath (auto_trivial_resolve_add_command path) path
      ∧ (∀ cmd ∈ apply_path_strategy_commands "ours" path, SeparatorBeforePath cmd path)
      ∧ (∀ cmd ∈ apply_path_strategy_commands "theirs" path, SeparatorBeforePath cmd path) := by
  refine ⟨⟨["git", "add"], [], rfl⟩, ?_, ?_⟩
  · intro cmd hcmd
    simp [apply_path_strategy_commands] at hcmd
    rcases hcmd with rfl | rfl
    · exact ⟨["git", "checkout", "--ours"], [], rfl⟩
    · exact ⟨["git", "add"], [], rfl⟩
  · intro cmd hcmd
    simp [apply_path_strategy_commands] at hcmd
    rcases hcmd with rfl | rfl
    · exact ⟨["git", "checkout", "--theirs"], [], rfl⟩
    · exact ⟨["git", "add"], [], rfl⟩

/-- Witness for C2 at the hyphen-prefixed path exercised by the unit
tests. -/
theorem conflict_commands_use_separator_witness :
    SeparatorBeforePath (auto_trivial_resolve_add_command "-leading") "-leading"
      ∧ (∀ cmd ∈ apply_path_strategy_commands "ours" "-leading",
          SeparatorBeforePath cmd "-leading")
      ∧ (∀ cmd ∈ apply_path_strategy_commands "theirs" "-leading",
          SeparatorBeforePath cmd "-leading") :=
  conflict_commands_use_separator "-leading" (by decide)

/-- C6: the action runner built by `WorkflowContext.build_action_runner`
is a total boolean function — an unknown action name yields `false`, a
handler body that raised `GitCommandError` or any unexpected exception
yields `false` (the exception is consumed, not re-raised), and a normal
handler result is passed through. -/
theorem build_action_runner_total (handlers : String → Option (ActionSpec → ActionOutcome))
    (action : ActionSpec) :
    (handlers action.name = none → build_action_runner handlers action = false)
      ∧ (∀ body rc err, handlers action.name = some body →
          body action = ActionOutcome.gitCommandError rc err →
          build_action_runner handlers action = false)
      ∧ (∀ body msg, handlers action.name = some body →
          body action = ActionOutcome.unexpectedError msg →
          build_action_runner handlers action = false)
      ∧ (∀ body result, handlers action.name = some body →
          body action = ActionOutcome.ok result →
          build_action_runner handlers action = result) := by
  refine ⟨?_, ?_, ?_, ?_⟩
  · intro hnone
    simp [build_action_runner, hnone]
  · intro body rc err hbody houtcome
    simp [build_action_runner, hbody, houtcome]
  · intro body msg hbody houtcome
    simp [build_action_runner, hbody, houtcome]
  · intro body result hbody houtcome
    simp [build_action_runner, hbody, houtcome]

/-- Concrete action used in the C6 witness. -/
def w6_action : ActionSpec :=
  { name := "Rebase:OntoUpstream", cost := 1.0, rationale := "", params := none }

/-- Witness for C6: a handler body that raises `GitCommandError` makes
the runner report failure instead of propagating the error. -/
theorem build_action_runner_total_witness :
    build_action_runner
        (fun _ => some (fun _ => ActionOutcome.gitCommandError 1 "fatal: rebase failed"))
        w6_action = false :=
  (build_action_runner_total
      (fun _ => some (fun _ => ActionOutcome.gitCommandError 1 "fatal: rebase failed"))
      w6_action).2.1 (fun _ => ActionOutcome.gitCommandError 1 "fatal: rebase failed")
    1 "fatal: rebase failed" rfl rfl

/-- C9: `_should_auto_apply` holds exactly when the patch set is
non-empty and the confidence/patch-count thresholds of the selected
safety level are met; in particular an empty patch set or a low
confidence is never auto-applied at any level. -/
theorem should_auto_apply_iff (ps : PatchSet) (lvl : LLMSafetyLevel) :
    _should_auto_apply ps lvl = true ↔
      (ps.patches ≠ []
        ∧ ((lvl = LLMSafetyLevel.cautious ∧ ps.confidence = ConfidenceLevel.high
              ∧ ps.patches.length = 1)
          ∨ (lvl = LLMSafetyLevel.balanced
              ∧ (ps.confidence = ConfidenceLevel.high ∨ ps.confidence = ConfidenceLevel.med)
              ∧ ps.patches.length ≤ 3)
          ∨ (lvl = LLMSafetyLevel.experimental
              ∧ (ps.confidence = ConfidenceLevel.high ∨ ps.confidence = ConfidenceLevel.med)))) := by
  obtain ⟨patches, confidence, rationale⟩ := ps
  cases lvl <;> cases confidence <;> cases patches <;>
    simp [_should_auto_apply, AUTO_APPLY_PATCH_LIMIT]

/-- C10: `register_usage` increments the running totals first and only
then reports a budget violation, judged against the already-updated
totals; the incremented totals are retained in the returned tracker even
when the error is reported, and `ensure_within_budget` reports an error
under exactly the same projected-overrun condition while returning no
modified tracker. -/
theorem register_usage_spec (t : BudgetTracker) (pt ct : Option Int) (cost : Option Rat) :
    (t.register_usage pt ct cost).1.used_tokens
        = t.used_tokens + (pt.getD 0 + ct.getD 0)
      ∧ (t.register_usage pt ct cost).1.used_cost = t.used_cost + cost.getD 0
      ∧ (t.register_usage pt ct cost).1.max_tokens = t.max_tokens
      ∧ (t.register_usage pt ct cost).1.max_cost = t.max_cost
      ∧ ((t.register_usage pt ct cost).2.isSome ↔
          ((∃ m, t.max_tokens = some m ∧ m < (t.register_usage pt ct cost).1.used_tokens)
            ∨ (∃ m, t.max_cost = some m ∧ m < (t.register_usage pt ct cost).1.used_cost)))
      ∧ ((t.ensure_within_budget pt ct cost).isSome ↔
          (t.register_usage pt ct cost).2.isSome) := by
  obtain ⟨mt, mc, ut, uc⟩ := t
  refine ⟨rfl, rfl, rfl, rfl, ?_, ?_⟩
  · simp only [BudgetTracker.register_usage, BudgetTracker.ensure_within_budget,
      BudgetTracker.project_tokens, BudgetTracker.project_cost, Option.getD_some]
    cases mt <;> cases mc <;> simp only [] <;>
      (try split_ifs) <;> simp_all
  · simp only [BudgetTracker.register_usage, BudgetTracker.ensure_within_budget,
      BudgetTracker.project_tokens, BudgetTracker.project_cost, Option.getD_some]

/-- C7: `apply_plan_hint` scales the estimated cost by one plus the
clamped adjustment; for a non-negative original cost the adjusted cost
stays within ±20% of the original, and `clamp_cost_adjustment` (with its
default bounds) always lands in [-0.2, 0.2] and is the identity on
inputs already in that interval. -/
theorem apply_plan_hint_clamps (plan : Plan) (hint : PlanHint)
    (h : 0 ≤ plan.estimated_cost) :
    ∃ cl, clamp_cost_adjustment hint.cost_adjustment_pct (-0.2) 0.2 = Except.ok cl
      ∧ -0.2 ≤ cl ∧ cl ≤ 0.2
      ∧ (-0.2 ≤ hint.cost_adjustment_pct → hint.cost_adjustment_pct ≤ 0.2 →
          cl = hint.cost_adjustment_pct)
      ∧ ∃ plan2, apply_plan_hint plan hint = Except.ok plan2
          ∧ plan2.estimated_cost = plan.estimated_cost * (1 + cl)
          ∧ |plan2.estimated_cost - plan.estimated_cost| ≤ 0.2 * plan.estimated_cost := by
  have hok : clamp_cost_adjustment hint.cost_adjustment_pct (-0.2) 0.2
      = Except.ok (min (max hint.cost_adjustment_pct (-0.2)) 0.2) := by
    unfold clamp_cost_adjustment
    rw [if_neg (by norm_num)]
  set cl := min (max hint.cost_adjustment_pct (-0.2)) 0.2 with hcl
  have hlo : (-0.2 : Rat) ≤ cl :=
    le_min (le_max_right _ _) (by norm_num)
  have hhi : cl ≤ (0.2 : Rat) := min_le_right _ _
  refine ⟨cl, hok, hlo, hhi, ?_, ?_⟩
  · intro h1 h2
    rw [hcl, max_eq_left h1, min_eq_left h2]
  · refine ⟨{ plan with
        estimated_cost := plan.estimated_cost * (1 + cl)
        notes := (plan.notes ++
          ["plan_hint_action=" ++ hint.action,
           "cost_adjustment_pct=" ++ format_fixed3 cl]) ++
          (match hint.note with
            | some n => ["plan_hint_note=" ++ n]
            | none => []) }, ?_, rfl, ?_⟩
    · unfold apply_plan_hint
      rw [hok]
      cases hint.note <;> simp
    · rw [abs_le]
      constructor <;> nlinarith [hlo, hhi, h]

/-- Witness plan for C7. -/
def w7_plan : Plan := { actions := [], estimated_cost := 10, notes := [] }

/-- Witness hint for C7, requesting an over-large +50% adjustment. -/
def w7_hint : PlanHint :=
  { action := "keep", cost_adjustment_pct := 0.5, note := none }

/-- Witness for C7 at a concrete plan and hint. -/
theorem apply_plan_hint_clamps_witness :
    ∃ cl, clamp_cost_adjustment w7_hint.cost_adjustment_pct (-0.2) 0.2 = Except.ok cl
      ∧ -0.2 ≤ cl ∧ cl ≤ 0.2
      ∧ (-0.2 ≤ w7_hint.cost_adjustment_pct → w7_hint.cost_adjustment_pct ≤ 0.2 →
          cl = w7_hint.cost_adjustment_pct)
      ∧ ∃ plan2, apply_plan_hint w7_plan w7_hint = Except.ok plan2
          ∧ plan2.estimated_cost = w7_plan.estimated_cost * (1 + cl)
          ∧ |plan2.estimated_cost - w7_plan.estimated_cost|
              ≤ 0.2 * w7_plan.estimated_cost :=
  apply_plan_hint_clamps w7_plan w7_hint (by norm_num [w7_plan])

end Goapgit
